import Mathlib

/-!
Verification of the Resume-Relevance-System scoring core.

This file gives a shallow embedding of the scoring pipeline of
`app/scoring.py` and of the project extractor of `app/parsers.py`, and
proves the spec-level properties about them.  Conventions:

* Python `str` is Lean `String`; the character-level operations used by
  the code (`lower`, `strip`, substring `in`, `split`, `endswith`,
  slicing) are implemented explicitly over `List Char` (all inputs of
  interest are ASCII).
* Python `int` is `Int`.  Python `float` values are modelled by their
  exact rational value, represented by the kernel-computable fraction
  type `Frac` below (numerator/denominator, never normalized);
  `Frac.toRat` interprets a `Frac` in `ℚ` for the statements.  `int(x)`
  (truncation toward zero) is `Frac.trunc`.
* `rapidfuzz.fuzz.token_sort_ratio` is modelled exactly: both strings
  are whitespace-tokenised, the tokens sorted and re-joined with single
  spaces, and the normalized InDel similarity
  `200 * lcs(a,b) / (|a| + |b|)` (in [0,100]) is returned, 100 when
  both processed strings are empty.  This is the exact rational of
  which `rapidfuzz` returns the IEEE double.
* No function of the embedded pipeline has an exception path in the
  source, so every embedded function is total.
-/

/-! ## Exact fractions (model of Python float values) -/

/-- An exact fraction `num / den`.  Denominators are positive for every
value built by the pipeline; the representation is never normalized so
that all operations are plain integer arithmetic, evaluable by the
kernel. -/
structure Frac where
  num : Int
  den : Nat
deriving DecidableEq

/-- Embed an integer. -/
def Frac.ofInt (n : Int) : Frac := ⟨n, 1⟩

/-- Exact addition. -/
def Frac.add (a b : Frac) : Frac :=
  ⟨a.num * (b.den : Int) + b.num * (a.den : Int), a.den * b.den⟩

/-- Exact multiplication. -/
def Frac.mul (a b : Frac) : Frac := ⟨a.num * b.num, a.den * b.den⟩

/-- Exact division by a natural number. -/
def Frac.divNat (a : Frac) (k : Nat) : Frac := ⟨a.num, a.den * k⟩

/-- Strict comparison `a < b` by cross-multiplication (valid for the
positive denominators maintained by the pipeline). -/
def Frac.blt (a b : Frac) : Bool := a.num * (b.den : Int) < b.num * (a.den : Int)

/-- Comparison `a ≤ b` by cross-multiplication. -/
def Frac.ble (a b : Frac) : Bool := a.num * (b.den : Int) ≤ b.num * (a.den : Int)

/-- Python `min` on two float values. -/
def Frac.fmin (a b : Frac) : Frac := if Frac.blt a b then a else b

/-- Python `int(x)`: truncation toward zero. -/
def Frac.trunc (a : Frac) : Int := a.num.tdiv (a.den : Int)

/-- The rational value of a fraction. -/
def Frac.toRat (a : Frac) : ℚ := (a.num : ℚ) / (a.den : ℚ)

/-! ## Python string primitives -/

/-- Python whitespace (the characters stripped by `str.strip()` and
split on by `str.split()`). -/
def pyIsSpace (c : Char) : Bool :=
  c = ' ' || c = '\t' || c = '\n' || c = '\r' || c = '\x0b' || c = '\x0c'

/-- ASCII lower-casing of one character, as Python `str.lower` acts on
the ASCII range. -/
def lowerChar (c : Char) : Char :=
  if 'A' ≤ c ∧ c ≤ 'Z' then Char.ofNat (c.toNat + 32) else c

/-- Python `s.lower()` (ASCII fragment). -/
def pyLower (s : String) : String := ⟨s.data.map lowerChar⟩

/-- Strip Python whitespace from both ends of a character list. -/
def stripChars (cs : List Char) : List Char :=
  ((cs.dropWhile pyIsSpace).reverse.dropWhile pyIsSpace).reverse

/-- Python `s.strip()`. -/
def pyStrip (s : String) : String := ⟨stripChars s.data⟩

/-- `hasSub needle hay` is Python `needle in hay` on character lists:
`needle` occurs contiguously inside `hay`. -/
def hasSub (needle : List Char) : List Char → Bool
  | [] => List.isPrefixOf needle []
  | c :: rest => List.isPrefixOf needle (c :: rest) || hasSub needle rest

/-- Python `needle in hay` on strings. -/
def strContainsS (hay needle : String) : Bool := hasSub needle.data hay.data

/-- Python `s[:n]` (the first `n` characters). -/
def strTake (n : Nat) (s : String) : String := ⟨s.data.take n⟩

/-- Python `s.endswith(".")`. -/
def endsDot (s : String) : Bool := s.data.getLastD ' ' = '.'

/-- Helper for Python `s.split()`: accumulates the current word
(reversed) while scanning. -/
def wordsAux : List Char → List Char → List (List Char)
  | [], cur => if cur = [] then [] else [cur.reverse]
  | c :: rest, cur =>
    if pyIsSpace c then
      if cur = [] then wordsAux rest [] else cur.reverse :: wordsAux rest []
    else wordsAux rest (c :: cur)

/-- Python `s.split()` with no separator: maximal runs of
non-whitespace characters. -/
def words (cs : List Char) : List (List Char) := wordsAux cs []

/-- Lexicographic order on character lists by code point, as Python
string comparison used by `sorted`. -/
def lexLe : List Char → List Char → Bool
  | [], _ => true
  | _ :: _, [] => false
  | a :: as, b :: bs =>
    if a.toNat < b.toNat then true
    else if b.toNat < a.toNat then false
    else lexLe as bs

/-- Insert a token into a lexicographically sorted token list. -/
def insertTok (x : List Char) : List (List Char) → List (List Char)
  | [] => [x]
  | y :: ys => if lexLe x y then x :: y :: ys else y :: insertTok x ys

/-- Sort a token list lexicographically (insertion sort; the `sorted`
of the token_sort preprocessing). -/
def sortToks : List (List Char) → List (List Char)
  | [] => []
  | x :: xs => insertTok x (sortToks xs)

/-- The token_sort preprocessing of `rapidfuzz.fuzz.token_sort_ratio`:
split on whitespace, sort the tokens, join with single spaces. -/
def tokenSortProc (s : String) : List Char :=
  List.intercalate [' '] (sortToks (words s.data))

/-- One dynamic-programming row step for the longest common
subsequence: the second list is the previous row aligned so that its
head is the diagonal value; the last argument is the value just
computed in the current row. -/
def lcsRowAux (x : Char) : List Char → List Nat → Nat → List Nat
  | [], _, _ => []
  | y :: ys, prev, nPrev =>
    match prev with
    | [] => []
    | pPrev :: pRest =>
      let pj := pRest.headD 0
      let v := if x = y then pPrev + 1 else max nPrev pj
      v :: lcsRowAux x ys pRest v

/-- Length of a longest common subsequence, by row-wise dynamic
programming (structurally recursive, kernel-evaluable). -/
def lcsCompute (xs ys : List Char) : Nat :=
  (xs.foldl (fun P x => 0 :: lcsRowAux x ys P 0)
    (List.replicate (ys.length + 1) 0)).getLastD 0

/-- Normalized InDel similarity of two character lists, scaled to
[0,100]: `200·lcs/(|a|+|b|)`, and 100 when both are empty.  This is
the exact value computed by `rapidfuzz`. -/
def indelSim (a b : List Char) : Frac :=
  if a.length + b.length = 0 then Frac.ofInt 100
  else ⟨(200 * lcsCompute a b : Int), a.length + b.length⟩

/-- `rapidfuzz.fuzz.token_sort_ratio`, exactly (the library returns the
IEEE double of this rational). -/
def token_sort_score (a b : String) : Frac :=
  indelSim (tokenSortProc a) (tokenSortProc b)

/-! ## app/scoring.py -/

/-- `canon` (scoring.py line 15): lowercase, replace `-` and `_` by a
space, strip.  The two single-character `str.replace` calls are the
character map `sepToSpace`. -/
def sepToSpace (c : Char) : Char := if c = '-' ∨ c = '_' then ' ' else c

/-- `canon` from scoring.py: canonicalize a string for matching. -/
def canon (s : String) : String := pyStrip ⟨(s.data.map lowerChar).map sepToSpace⟩

/-- The fixed `skill_synonyms` table of `advanced_skill_matching`. -/
def skill_synonyms : List (String × List String) :=
  [("javascript", ["js", "node.js", "nodejs", "ecmascript"]),
   ("python", ["py", "python3", "python2"]),
   ("machine learning", ["ml", "artificial intelligence", "ai"]),
   ("database", ["db", "sql", "nosql", "mongodb", "postgresql", "mysql"]),
   ("cloud", ["aws", "azure", "gcp", "google cloud", "amazon web services"]),
   ("frontend", ["front-end", "ui", "user interface", "react", "angular", "vue"]),
   ("backend", ["back-end", "server-side", "api", "microservices"])]

/-- One step of the running-maximum loop
`if score > best_match: best_match = score` (the auxiliary
`matched_skill` variable of the source is dead for the outputs and is
not modelled). -/
def fuzzStep (req : String) (best : Frac) (cand : String) : Frac :=
  let s := token_sort_score req cand
  if Frac.blt best s then s else best

/-- The maximal similarity a required (canonicalized) skill reaches
against the candidate skills: direct fuzzy matching followed by the
synonym expansion loop (scoring.py lines 38-57). -/
def bestMatchFor (req : String) (candidate_canon : List String) : Frac :=
  let direct := candidate_canon.foldl (fuzzStep req) (Frac.ofInt 0)
  skill_synonyms.foldl
    (fun best p =>
      if req ∈ p.2 ∨ req = p.1 then
        (p.2 ++ [p.1]).foldl (fun b syn => candidate_canon.foldl (fuzzStep syn) b) best
      else best)
    direct

/-- `advanced_skill_matching` from scoring.py: each canonicalized
required skill goes to `matched` or `missing` according to whether its
best similarity reaches the threshold, and
`match_percentage = int(100 * len(matched) / len(required_skills))`
(100 when `required_skills` is empty). -/
def advanced_skill_matching (required_skills candidate_skills : List String)
    (threshold : Int := 70) : List String × List String × Int :=
  let required_canon := required_skills.map canon
  let candidate_canon := candidate_skills.map canon
  let part := required_canon.partition
    (fun req => Frac.ble (Frac.ofInt threshold) (bestMatchFor req candidate_canon))
  let match_percentage : Int :=
    if required_skills = [] then 100
    else Frac.trunc ⟨(100 * part.1.length : Int), required_skills.length⟩
  (part.1, part.2, match_percentage)

/-- `EducationEntry`: the dictionaries produced by `parse_education`;
`education_score` reads only the `degree` field. -/
structure EducationEntry where
  degree : String
  year : Option String
  institution : Option String
deriving DecidableEq

/-- `ExperienceEntry`: the dictionaries produced by `parse_experience`;
`experience_score` reads only the number of entries. -/
structure ExperienceEntry where
  role : Option String
  company : String
  duration : String
deriving DecidableEq

/-- `ProjectEntry`: the dictionaries produced by `parse_projects`. -/
structure ProjectEntry where
  title : String
  description : String
deriving DecidableEq

/-- The `degree_hierarchy` table of `education_score`. -/
def degree_hierarchy : List (String × Nat) :=
  [("phd", 5), ("doctorate", 5),
   ("master", 4), ("mtech", 4), ("mba", 4), ("msc", 4), ("mcom", 4), ("ma", 4),
   ("bachelor", 3), ("btech", 3), ("be", 3), ("bsc", 3), ("bcom", 3), ("ba", 3), ("bca", 3),
   ("diploma", 2),
   ("certificate", 1)]

/-- `required_level` of `education_score`: the maximal hierarchy level
whose degree keyword occurs in some required-education string
(lower-cased substring test), 0 if none. -/
def required_level_of (required_education : List String) : Nat :=
  required_education.foldl
    (fun acc edu => degree_hierarchy.foldl
      (fun a p => if strContainsS (pyLower edu) p.1 then max a p.2 else a) acc) 0

/-- `candidate_level` of `education_score`: the same scan over the
candidate degree strings. -/
def candidate_level_of (candidate_education : List EducationEntry) : Nat :=
  candidate_education.foldl
    (fun acc e => degree_hierarchy.foldl
      (fun a p => if strContainsS (pyLower e.degree) p.1 then max a p.2 else a) acc) 0

/-- `education_score` from scoring.py. -/
def education_score (required_education : List String)
    (candidate_education : List EducationEntry) : Int × String :=
  if required_education = [] then (100, "No specific education requirements")
  else if candidate_education = [] then (0, "No education information found")
  else
    let required_level := required_level_of required_education
    let candidate_level := candidate_level_of candidate_education
    if candidate_level ≥ required_level then (100, "Education requirements met")
    else if (candidate_level : Int) ≥ (required_level : Int) - 1 then
      (75, "Close match to education requirements")
    else (25, "Education requirements not fully met")

/-- First maximal run of digits in a character list
(`re.search(r"(\d+)", s)`). -/
def firstDigitRun : List Char → Option (List Char)
  | [] => none
  | c :: rest =>
    if c.isDigit then some (c :: rest.takeWhile Char.isDigit)
    else firstDigitRun rest

/-- Decimal value of a digit run. -/
def digitsToNat (ds : List Char) : Nat :=
  ds.foldl (fun acc c => acc * 10 + (c.toNat - 48)) 0

/-- Render a float value with one decimal digit, as the `:.1f` format
of the feedback strings does on the exact half-integers produced by
`experience_score` (never proof-relevant). -/
def fmt1 (a : Frac) : String :=
  let t := (a.num * 10).tdiv (a.den : Int)
  toString (t.tdiv 10) ++ "." ++ toString (t.tmod 10)

/-- `experience_score` from scoring.py: 100 when no requirement is
stated, otherwise compare `1.5 × number of entries` against the first
integer of the requirement string. -/
def experience_score (required_experience : String)
    (candidate_experience : List ExperienceEntry) : Int × String :=
  if required_experience = "" ∨ strContainsS (pyLower required_experience) "not specified" then
    (100, "No specific experience requirements")
  else
    let req_years : Int :=
      match firstDigitRun required_experience.data with
      | some ds => (digitsToNat ds : Int)
      | none => 0
    let candidate_years : Frac := ⟨(3 * candidate_experience.length : Int), 2⟩
    if Frac.ble (Frac.ofInt req_years) candidate_years then
      (100, "Experience requirement met (" ++ fmt1 candidate_years ++ " years)")
    else if Frac.ble ⟨7 * req_years, 10⟩ candidate_years then
      (75, "Close to experience requirement (" ++ fmt1 candidate_years ++ " years)")
    else
      (40, "Below experience requirement (" ++ fmt1 candidate_years ++ " years)")

/-- Number of job skills whose canonical form occurs in the lower-cased
`title + " " + description` text of a project (duplicated job skills
count twice, as in the source loop). -/
def projectSkillCount (project : ProjectEntry) (job_skills : List String) : Nat :=
  let project_text := pyLower (project.title ++ " " ++ project.description)
  job_skills.countP (fun skill => strContainsS project_text (canon skill))

/-- One iteration of the project loop of `project_relevance_score`:
a project with a positive skill count adds
`min(count / len(job_skills), 1.0) * 100` to the running total and is
counted as relevant. -/
def projLoopStep (job_skills : List String) (acc : Frac × Nat)
    (project : ProjectEntry) : Frac × Nat :=
  let cnt := projectSkillCount project job_skills
  if 0 < cnt then
    (acc.1.add ((Frac.fmin ⟨(cnt : Int), job_skills.length⟩ (Frac.ofInt 1)).mul
      (Frac.ofInt 100)), acc.2 + 1)
  else acc

/-- `project_relevance_score` from scoring.py. -/
def project_relevance_score (candidate_projects : List ProjectEntry)
    (job_skills : List String) : Int × String :=
  if candidate_projects = [] then (50, "No projects found")
  else if job_skills = [] then (80, "Projects present but no specific skills to match")
  else
    let tr := candidate_projects.foldl (projLoopStep job_skills) (Frac.ofInt 0, 0)
    if tr.2 = 0 then (30, "No relevant projects found")
    else (Frac.trunc (tr.1.divNat tr.2), toString tr.2 ++ " relevant projects found")

/-- The certification bonus of `comprehensive_scoring`
(`min(len(certifications) * 5, 20)`). -/
def certification_bonus (certifications : List String) : Int :=
  min ((certifications.length : Int) * 5) 20

/-- The weighted sum of `comprehensive_scoring` (weights 0.35, 0.15,
0.20, 0.20, 0.10, taken at their exact decimal values). -/
def weighted_sum_frac (must nice edu exp proj : Int) : Frac :=
  (((((Frac.ofInt must).mul ⟨35, 100⟩).add ((Frac.ofInt nice).mul ⟨15, 100⟩)).add
    ((Frac.ofInt edu).mul ⟨20, 100⟩)).add ((Frac.ofInt exp).mul ⟨20, 100⟩)).add
    ((Frac.ofInt proj).mul ⟨10, 100⟩)

/-- `final_score = min(int(weighted_score + cert_bonus), 100)`
(scoring.py line 196). -/
def final_score_of (must nice edu exp proj cert_bonus : Int) : Int :=
  min (Frac.trunc ((weighted_sum_frac must nice edu exp proj).add
    (Frac.ofInt cert_bonus))) 100

/-- `verdict_from_score` from scoring.py. -/
def verdict_from_score (score : Int) : String :=
  if score ≥ 80 then "High" else if score ≥ 60 then "Medium" else "Low"

/-- `ResumeRecord`: the fields of the resume dictionary read by
`comprehensive_scoring`. -/
structure ResumeRecord where
  skills : List String
  education : List EducationEntry
  experience : List ExperienceEntry
  projects : List ProjectEntry
  certifications : List String
deriving DecidableEq

/-- `JobRequirements`: the fields of the job dictionary read by
`comprehensive_scoring`. -/
structure JobRequirements where
  must_have_skills : List String
  nice_to_have_skills : List String
  required_education : List String
  required_experience : String
deriving DecidableEq

/-- `ScoringResult`: the dictionary returned by
`comprehensive_scoring`. -/
structure ScoringResult where
  final_score : Int
  must_have_score : Int
  nice_to_have_score : Int
  education_score : Int
  experience_score : Int
  project_score : Int
  certification_bonus : Int
  matched_must_have : List String
  missing_must_have : List String
  matched_nice_to_have : List String
  missing_nice_to_have : List String
  education_feedback : String
  experience_feedback : String
  project_feedback : String
  verdict : String
deriving DecidableEq

/-- `comprehensive_scoring` from scoring.py (lines 154-214).  The tuple
unpackings of the source are written as projections. -/
def comprehensive_scoring (resume_data : ResumeRecord) (job_data : JobRequirements) :
    ScoringResult :=
  let must_res := advanced_skill_matching job_data.must_have_skills resume_data.skills
  let nice_res := advanced_skill_matching job_data.nice_to_have_skills resume_data.skills 60
  let edu_res := education_score job_data.required_education resume_data.education
  let exp_res := experience_score job_data.required_experience resume_data.experience
  let project_res := project_relevance_score resume_data.projects
    (job_data.must_have_skills ++ job_data.nice_to_have_skills)
  let cert_bonus := certification_bonus resume_data.certifications
  let final_score := final_score_of must_res.2.2 nice_res.2.2 edu_res.1 exp_res.1
    project_res.1 cert_bonus
  { final_score := final_score
    must_have_score := must_res.2.2
    nice_to_have_score := nice_res.2.2
    education_score := edu_res.1
    experience_score := exp_res.1
    project_score := project_res.1
    certification_bonus := cert_bonus
    matched_must_have := must_res.1
    missing_must_have := must_res.2.1
    matched_nice_to_have := nice_res.1
    missing_nice_to_have := nice_res.2.1
    education_feedback := edu_res.2
    experience_feedback := exp_res.2
    project_feedback := project_res.2
    verdict := verdict_from_score final_score }

/-! ## app/parsers.py: parse_projects -/

/-- The `project_indicators` list of `parse_projects`. -/
def project_indicators : List String := ["project", "portfolio", "github", "work sample"]

/-- A line announcing a project section: its lower-cased text contains
one of the indicator keywords. -/
def hasIndicator (line : String) : Bool :=
  project_indicators.any (fun ind => strContainsS (pyLower line) ind)

/-- The description collected for a title found at line `j`: the
stripped non-empty lines among lines `j+1 .. j+3`, joined by single
spaces and truncated to 200 characters. -/
def descriptionAt (lines : List String) (j : Nat) : String :=
  let ks := List.range' (j + 1) (min (j + 4) lines.length - (j + 1))
  let ds := ks.filterMap (fun k =>
    let s := pyStrip (lines.getD k "")
    if s = "" then none else some s)
  strTake 200 (String.intercalate " " ds)

/-- The project entry contributed by line `j` of the window, if any:
the stripped line must be non-empty, of length at least 10 (the source
skips shorter lines) and below 100, and must not end in a period. -/
def titleAt (lines : List String) (j : Nat) : Option ProjectEntry :=
  let cur := pyStrip (lines.getD j "")
  if cur = "" ∨ cur.length < 10 then none
  else if cur.length < 100 ∧ ¬ endsDot cur then
    some ⟨cur, descriptionAt lines j⟩
  else none

/-- `parse_projects` from parsers.py (lines 175-204), embedded over the
line list produced by `text.splitlines()`: for every line containing a
project indicator, the following window `range(i+1, min(i+15, n))`
(that is, at most 14 lines) is scanned for title lines. -/
def parse_projects (lines : List String) : List ProjectEntry :=
  (List.range lines.length).flatMap (fun i =>
    if hasIndicator (lines.getD i "") then
      (List.range' (i + 1) (min (i + 15) lines.length - (i + 1))).filterMap
        (titleAt lines)
    else [])

/-- Rank of a verdict string, used to state monotonicity of
`verdict_from_score`. -/
def verdictRank (v : String) : Nat :=
  if v = "High" then 2 else if v = "Medium" then 1 else 0

/-! ## Bridge lemmas: `Frac` versus `ℚ` -/

theorem Frac.eq_of (a b : Frac) (h1 : a.num = b.num) (h2 : a.den = b.den) : a = b := by
  cases a; cases b; cases h1; cases h2; rfl

theorem Frac.toRat_ofInt (n : Int) : (Frac.ofInt n).toRat = (n : ℚ) := by
  simp [Frac.ofInt, Frac.toRat]

theorem Frac.toRat_add (a b : Frac) (ha : 0 < a.den) (hb : 0 < b.den) :
    (a.add b).toRat = a.toRat + b.toRat := by
  have ha' : ((a.den : ℚ)) ≠ 0 := by exact_mod_cast ha.ne'
  have hb' : ((b.den : ℚ)) ≠ 0 := by exact_mod_cast hb.ne'
  unfold Frac.toRat Frac.add
  push_cast
  field_simp

theorem Frac.toRat_mul (a b : Frac) : (a.mul b).toRat = a.toRat * b.toRat := by
  unfold Frac.toRat Frac.mul
  push_cast
  rw [div_mul_div_comm]

theorem Frac.toRat_divNat (a : Frac) (k : Nat) :
    (a.divNat k).toRat = a.toRat / (k : ℚ) := by
  unfold Frac.toRat Frac.divNat
  push_cast
  rw [div_div]

/-- For a nonnegative numerator, Python truncation agrees with the
floor of the rational value (for denominator 0 both sides are 0). -/
theorem Frac.trunc_eq_floor (a : Frac) (h : 0 ≤ a.num) : a.trunc = ⌊a.toRat⌋ := by
  unfold Frac.trunc Frac.toRat
  rw [Rat.floor_intCast_div_natCast]
  exact Int.tdiv_eq_ediv h (Int.natCast_nonneg _)

/-- `advanced_skill_matching`, characterized by filters: the matched
and missing lists are the canonicalized required skills filtered by the
threshold test, in order. -/
theorem advanced_skill_matching_eq (r c : List String) (t : Int) :
    advanced_skill_matching r c t =
      ((r.map canon).filter
        (fun req => Frac.ble (Frac.ofInt t) (bestMatchFor req (c.map canon))),
       (r.map canon).filter
        (fun req => ! Frac.ble (Frac.ofInt t) (bestMatchFor req (c.map canon))),
       if r = [] then 100
       else Frac.trunc ⟨(100 * ((r.map canon).filter
         (fun req => Frac.ble (Frac.ofInt t) (bestMatchFor req (c.map canon)))).length : Int),
         r.length⟩) := by
  simp only [advanced_skill_matching, List.partition_eq_filter_filter]
  rfl

example : canon " Machine-Learning " = "machine learning" := by decide
example : token_sort_score "aa" "aa" = ⟨400, 4⟩ := by decide
example : (token_sort_score "world hello" "hello world").num = 2200 := by decide
example : Frac.trunc ⟨200, 3⟩ = 66 := by decide
set_option maxRecDepth 40000 in
example : advanced_skill_matching ["aa", "bb", "cc"] ["aa", "bb"] 70 =
    (["aa", "bb"], ["cc"], 66) := by decide
set_option maxRecDepth 100000 in
example : advanced_skill_matching ["javascript"] ["node.js"] 70 =
    (["javascript"], [], 100) := by decide
example : parse_projects ["project", "abcde"] = [] := by decide
example : parse_projects ["project", "abcdefghij"] = [⟨"abcdefghij", ""⟩] := by decide

/-! ## Claim theorems -/

/-- Claim C2: `verdict_from_score` returns High for every score ≥ 80,
Medium on [60,79], Low below 60; consequently it is monotonic
non-decreasing (through `verdictRank`), with the four stated point
values 79 → Medium, 80 → High, 59 → Low, 60 → Medium. -/
theorem C2_verdict_thresholds :
    (∀ s : Int, 80 ≤ s → verdict_from_score s = "High") ∧
    (∀ s : Int, 60 ≤ s → s ≤ 79 → verdict_from_score s = "Medium") ∧
    (∀ s : Int, s < 60 → verdict_from_score s = "Low") ∧
    (∀ s t : Int, s ≤ t →
      verdictRank (verdict_from_score s) ≤ verdictRank (verdict_from_score t)) ∧
    verdict_from_score 79 = "Medium" ∧ verdict_from_score 80 = "High" ∧
    verdict_from_score 59 = "Low" ∧ verdict_from_score 60 = "Medium" := by
  refine ⟨?_, ?_, ?_, ?_, by decide, by decide, by decide, by decide⟩
  · intro s h; unfold verdict_from_score; split_ifs <;> first | rfl | omega
  · intro s h1 h2; unfold verdict_from_score; split_ifs <;> first | rfl | omega
  · intro s h; unfold verdict_from_score; split_ifs <;> first | rfl | omega
  · intro s t h; unfold verdict_from_score
    split_ifs <;> first | decide | (exfalso; omega)

/-- Witness for C2 at concrete scores. -/
theorem C2_verdict_thresholds_witness :
    verdict_from_score 85 = "High" ∧ verdict_from_score 70 = "Medium" ∧
    verdict_from_score 12 = "Low" ∧
    verdictRank (verdict_from_score 70) ≤ verdictRank (verdict_from_score 90) :=
  ⟨C2_verdict_thresholds.1 85 (by decide),
   C2_verdict_thresholds.2.1 70 (by decide) (by decide),
   C2_verdict_thresholds.2.2.1 12 (by decide),
   C2_verdict_thresholds.2.2.2.1 70 90 (by decide)⟩

/-- Claim C7 (code bug): `advanced_skill_matching` performs no eager
validation of the similarity threshold.  At the out-of-range threshold
-5 it proceeds and returns a normal match result; since the running
maximum starts at 0 and 0 ≥ -5, the skill is even reported as matched
against an empty candidate list. -/
theorem C7_threshold_not_validated :
    advanced_skill_matching ["aa"] [] (-5) = (["aa"], [], 100) := by decide

/-- Claim C8: the full scoring pipeline is deterministic and idempotent:
identical (resume, job) inputs give identical `ScoringResult` values in
every field, including the order of the matched/missing lists.  The
embedding is a pure function because this path of the source performs
no I/O and consults no external service. -/
theorem C8_scoring_deterministic (r1 r2 : ResumeRecord) (j1 j2 : JobRequirements)
    (hr : r1 = r2) (hj : j1 = j2) :
    comprehensive_scoring r1 j1 = comprehensive_scoring r2 j2 := by
  subst hr; subst hj; rfl

/-- Witness for C8 at a concrete input. -/
theorem C8_scoring_deterministic_witness :
    comprehensive_scoring ⟨["python"], [], [], [], []⟩ ⟨["python"], [], [], "2 years"⟩ =
      comprehensive_scoring ⟨["python"], [], [], [], []⟩ ⟨["python"], [], [], "2 years"⟩ :=
  C8_scoring_deterministic _ _ _ _ rfl rfl

/-- Claim C10: `comprehensive_scoring` matches must-have skills at the
matcher default threshold 70 but nice-to-have skills at the laxer
threshold 60: its nice-to-have outputs are exactly
`advanced_skill_matching nice_to_have_skills skills 60`, and its
must-have outputs are the matcher at 70. -/
theorem C10_nice_to_have_threshold (resume_data : ResumeRecord)
    (job_data : JobRequirements) :
    ((comprehensive_scoring resume_data job_data).matched_nice_to_have,
      (comprehensive_scoring resume_data job_data).missing_nice_to_have,
      (comprehensive_scoring resume_data job_data).nice_to_have_score) =
      advanced_skill_matching job_data.nice_to_have_skills resume_data.skills 60 ∧
    ((comprehensive_scoring resume_data job_data).matched_must_have,
      (comprehensive_scoring resume_data job_data).missing_must_have,
      (comprehensive_scoring resume_data job_data).must_have_score) =
      advanced_skill_matching job_data.must_have_skills resume_data.skills 70 :=
  ⟨rfl, rfl⟩

/-- Claim C4: for every input, the matched and missing lists partition
the canonicalized required skills as sets: their union is the set of
canonicalized required skills and their intersection is empty. -/
theorem C4_matched_missing_partition (r c : List String) (t : Int) :
    ((advanced_skill_matching r c t).1.toFinset ∪
        (advanced_skill_matching r c t).2.1.toFinset = (r.map canon).toFinset) ∧
    ((advanced_skill_matching r c t).1.toFinset ∩
        (advanced_skill_matching r c t).2.1.toFinset = ∅) := by
  rw [advanced_skill_matching_eq]
  dsimp only
  constructor
  · ext a
    simp only [Finset.mem_union, List.mem_toFinset, List.mem_filter]
    cases h : Frac.ble (Frac.ofInt t) (bestMatchFor a (c.map canon)) <;> simp [h]
  · ext a
    simp only [Finset.mem_inter, List.mem_toFinset, List.mem_filter,
      Finset.not_mem_empty, iff_false, not_and]
    rintro ⟨-, h1⟩ -
    rw [h1]
    simp

theorem Frac.num_mk (n : Int) (d : Nat) : (⟨n, d⟩ : Frac).num = n := rfl

theorem Frac.toRat_mk (n : Int) (d : Nat) :
    (⟨n, d⟩ : Frac).toRat = (n : ℚ) / (d : ℚ) := rfl

/-- Claim C3 (amended): when the required list is non-empty the matcher
returns `match_percentage = int(100·|matched|/|required|)`, the integer
truncation (not the rounding to nearest); when it is empty the result
is `([], [], 100)`; and in all cases `match_percentage ∈ [0,100]`. -/
theorem C3_match_percentage (r c : List String) (t : Int) :
    (r ≠ [] →
      (advanced_skill_matching r c t).2.2 =
        ⌊(100 * ((advanced_skill_matching r c t).1.length : ℚ)) / (r.length : ℚ)⌋) ∧
    (r = [] → advanced_skill_matching r c t = ([], [], 100)) ∧
    (0 ≤ (advanced_skill_matching r c t).2.2 ∧
      (advanced_skill_matching r c t).2.2 ≤ 100) := by
  by_cases hr : r = []
  · subst hr
    have h0 : advanced_skill_matching [] c t = ([], [], 100) := by
      rw [advanced_skill_matching_eq]; rfl
    refine ⟨fun h => absurd rfl h, fun _ => h0, ?_, ?_⟩ <;> rw [h0] <;> decide
  · have hlen : 0 < r.length := List.length_pos.mpr hr
    have hm : (advanced_skill_matching r c t).1.length ≤ r.length := by
      rw [advanced_skill_matching_eq]
      dsimp only
      calc (List.filter _ (r.map canon)).length
          ≤ (r.map canon).length := List.length_filter_le _ _
        _ = r.length := List.length_map _ _
    have hpct : (advanced_skill_matching r c t).2.2 =
        ⌊(100 * ((advanced_skill_matching r c t).1.length : ℚ)) / (r.length : ℚ)⌋ := by
      rw [advanced_skill_matching_eq]
      dsimp only
      rw [if_neg hr, Frac.trunc_eq_floor _ (by rw [Frac.num_mk]; positivity)]
      rw [Frac.toRat_mk]
      congr 1
      push_cast
      ring
    refine ⟨fun _ => hpct, fun h => absurd h hr, ?_, ?_⟩
    · rw [hpct]
      apply Int.floor_nonneg.mpr
      positivity
    · rw [hpct]
      have hq : ((advanced_skill_matching r c t).1.length : ℚ) ≤ (r.length : ℚ) := by
        exact_mod_cast hm
      have h100 : (100 * ((advanced_skill_matching r c t).1.length : ℚ)) /
          (r.length : ℚ) ≤ 100 := by
        rw [div_le_iff (by positivity)]
        nlinarith
      calc ⌊(100 * ((advanced_skill_matching r c t).1.length : ℚ)) / (r.length : ℚ)⌋
          ≤ ⌊(100 : ℚ)⌋ := Int.floor_le_floor h100
        _ = 100 := by norm_num

/-- Witness for C3 at concrete inputs. -/
theorem C3_match_percentage_witness :
    ((["aa"] : List String) ≠ [] ∧
      (advanced_skill_matching ["aa"] ["aa"] 70).2.2 =
        ⌊(100 * ((advanced_skill_matching ["aa"] ["aa"] 70).1.length : ℚ)) /
          ((["aa"] : List String).length : ℚ)⌋) ∧
    advanced_skill_matching [] ["aa"] 70 = ([], [], 100) :=
  ⟨⟨by decide, (C3_match_percentage ["aa"] ["aa"] 70).1 (by decide)⟩,
   (C3_match_percentage [] ["aa"] 70).2.1 rfl⟩

set_option maxRecDepth 40000 in
/-- Counterexample to C3 as stated: with required = [aa, bb, cc],
candidate = [aa, bb] and threshold 70, exactly 2 of the 3 required
skills match and the code returns match_percentage 66 (truncation),
whereas rounding 100·2/3 as the claim states gives 67. -/
theorem C3_round_counterexample :
    advanced_skill_matching ["aa", "bb", "cc"] ["aa", "bb"] 70 =
      (["aa", "bb"], ["cc"], 66) ∧
    round ((100 * (2 : ℚ)) / 3) = 67 := by
  constructor
  · decide
  · rw [round_eq, Int.floor_eq_iff] <;> norm_num

/-- Claim C5: the education scorer returns 100 when there is no
requirement; 0 when a requirement is present but the candidate has no
education entries; otherwise 100/75/25 according to how the maximal
candidate degree level compares with the maximal required level; in
particular required [Bachelor] with no candidate education scores 0. -/
theorem C5_education_score_cases :
    (∀ ce : List EducationEntry, (education_score [] ce).1 = 100) ∧
    (∀ (re : List String) (ce : List EducationEntry), re ≠ [] → ce = [] →
      (education_score re ce).1 = 0) ∧
    (∀ (re : List String) (ce : List EducationEntry), re ≠ [] → ce ≠ [] →
      (education_score re ce).1 =
        (if required_level_of re ≤ candidate_level_of ce then 100
         else if (required_level_of re : Int) - 1 ≤ (candidate_level_of ce : Int) then 75
         else 25)) ∧
    (education_score ["Bachelor"] []).1 = 0 := by
  refine ⟨?_, ?_, ?_, by decide⟩
  · intro ce; rfl
  · intro re ce h1 h2
    subst h2
    unfold education_score
    rw [if_neg h1]
    rfl
  · intro re ce h1 h2
    unfold education_score
    rw [if_neg h1, if_neg h2]
    dsimp only
    simp only [ge_iff_le]
    split_ifs <;> rfl

/-- Witness for C5 at concrete inputs. -/
theorem C5_education_score_witness :
    (education_score ["Bachelor"] []).1 = 0 ∧
    (education_score ["Bachelor"] [⟨"BSc Computer Science", none, none⟩]).1 =
      (if required_level_of ["Bachelor"] ≤
          candidate_level_of [⟨"BSc Computer Science", none, none⟩] then 100
       else if (required_level_of ["Bachelor"] : Int) - 1 ≤
          (candidate_level_of [⟨"BSc Computer Science", none, none⟩] : Int) then 75
       else 25) :=
  ⟨C5_education_score_cases.2.1 ["Bachelor"] [] (by decide) rfl,
   C5_education_score_cases.2.2.1 ["Bachelor"] [⟨"BSc Computer Science", none, none⟩]
     (by decide) (by decide)⟩

/-- Claim C1: the aggregator computes
`certification_bonus = min(5·|certifications|, 20)` (always in [0,20]);
for sub-scores in [0,100] and a bonus in [0,20], `final_score` is the
weighted sum must·0.35 + nice·0.15 + education·0.20 + experience·0.20 +
projects·0.10 plus the bonus, truncated to an integer (the `int()` of
the source) and clamped to [0,100]; in particular sub-scores
(100,0,100,100,0) with bonus 0 give final score 75 with verdict Medium,
and 10 certifications give bonus exactly 20. -/
theorem C1_score_aggregation :
    (∀ certs : List String,
      certification_bonus certs = min (5 * (certs.length : Int)) 20 ∧
      0 ≤ certification_bonus certs ∧ certification_bonus certs ≤ 20) ∧
    (∀ must nice edu exp proj cb : Int,
      0 ≤ must → must ≤ 100 → 0 ≤ nice → nice ≤ 100 → 0 ≤ edu → edu ≤ 100 →
      0 ≤ exp → exp ≤ 100 → 0 ≤ proj → proj ≤ 100 → 0 ≤ cb → cb ≤ 20 →
      final_score_of must nice edu exp proj cb =
        max 0 (min ⌊((must : ℚ) * (35 / 100) + (nice : ℚ) * (15 / 100) +
          (edu : ℚ) * (20 / 100) + (exp : ℚ) * (20 / 100) +
          (proj : ℚ) * (10 / 100) + (cb : ℚ))⌋ 100) ∧
      0 ≤ final_score_of must nice edu exp proj cb ∧
      final_score_of must nice edu exp proj cb ≤ 100) ∧
    (final_score_of 100 0 100 100 0 0 = 75 ∧ verdict_from_score 75 = "Medium") ∧
    (∀ certs : List String, certs.length = 10 → certification_bonus certs = 20) := by
  refine ⟨?_, ?_, ⟨by decide, by decide⟩, ?_⟩
  · intro certs
    unfold certification_bonus
    refine ⟨by omega, by omega, by omega⟩
  · intro must nice edu exp proj cb h1 h2 h3 h4 h5 h6 h7 h8 h9 h10 h11 h12
    have hfrac : (weighted_sum_frac must nice edu exp proj).add (Frac.ofInt cb) =
        ⟨(35 * must + 15 * nice + 20 * edu + 20 * exp + 10 * proj + 100 * cb) * 100000000,
          10000000000⟩ := by
      apply Frac.eq_of
      · simp only [weighted_sum_frac, Frac.add, Frac.mul, Frac.ofInt]
        push_cast
        ring
      · simp only [weighted_sum_frac, Frac.add, Frac.mul, Frac.ofInt]
    set K : Int := 35 * must + 15 * nice + 20 * edu + 20 * exp + 10 * proj + 100 * cb
      with hK
    have hK0 : 0 ≤ K := by omega
    have htr : Frac.trunc ⟨K * 100000000, 10000000000⟩ = K / 100 := by
      unfold Frac.trunc
      dsimp only
      rw [Int.tdiv_eq_ediv (by omega) (by norm_num)]
      rw [show (((10000000000 : ℕ) : ℤ)) = 100000000 * 100 by norm_num,
        mul_comm K 100000000,
        Int.mul_ediv_mul_of_pos _ _ (by norm_num : (0 : ℤ) < 100000000)]
    have hfloor : ⌊((must : ℚ) * (35 / 100) + (nice : ℚ) * (15 / 100) +
        (edu : ℚ) * (20 / 100) + (exp : ℚ) * (20 / 100) +
        (proj : ℚ) * (10 / 100) + (cb : ℚ))⌋ = K / 100 := by
      have heq : ((must : ℚ) * (35 / 100) + (nice : ℚ) * (15 / 100) +
          (edu : ℚ) * (20 / 100) + (exp : ℚ) * (20 / 100) +
          (proj : ℚ) * (10 / 100) + (cb : ℚ)) = ((K : ℤ) : ℚ) / ((100 : ℕ) : ℚ) := by
        rw [hK]
        push_cast
        ring
      rw [heq, Rat.floor_intCast_div_natCast]
      norm_num
    have hfin : final_score_of must nice edu exp proj cb = min (K / 100) 100 := by
      unfold final_score_of
      rw [hfrac, htr]
    have hq0 : 0 ≤ K / 100 := Int.ediv_nonneg hK0 (by norm_num)
    refine ⟨?_, ?_, ?_⟩
    · rw [hfin, hfloor, max_eq_right (le_min hq0 (by norm_num))]
    · rw [hfin]
      exact le_min hq0 (by norm_num)
    · rw [hfin]
      exact min_le_right _ _
  · intro certs h
    unfold certification_bonus
    rw [h]
    decide

/-- Witness for C1 at concrete inputs. -/
theorem C1_score_aggregation_witness :
    certification_bonus ["c1", "c2", "c3", "c4", "c5", "c6", "c7", "c8", "c9", "c10"] = 20 ∧
    (final_score_of 80 50 75 40 30 10 =
      max 0 (min ⌊(((80 : ℤ) : ℚ) * (35 / 100) + ((50 : ℤ) : ℚ) * (15 / 100) +
        ((75 : ℤ) : ℚ) * (20 / 100) + ((40 : ℤ) : ℚ) * (20 / 100) +
        ((30 : ℤ) : ℚ) * (10 / 100) + ((10 : ℤ) : ℚ))⌋ 100) ∧
      0 ≤ final_score_of 80 50 75 40 30 10 ∧
      final_score_of 80 50 75 40 30 10 ≤ 100) :=
  ⟨C1_score_aggregation.2.2.2 _ rfl,
   C1_score_aggregation.2.1 80 50 75 40 30 10 (by norm_num) (by norm_num) (by norm_num)
     (by norm_num) (by norm_num) (by norm_num) (by norm_num) (by norm_num) (by norm_num)
     (by norm_num) (by norm_num) (by norm_num)⟩

/-- Invariant of the project loop of `project_relevance_score`: starting
from an accumulator with positive denominator and nonnegative numerator,
the loop preserves both, counts exactly the projects with a positive
skill count, and totals their contributions
`min(count/len(job_skills), 1) * 100` (stated via `Frac.toRat`). -/
theorem projLoop_spec (js : List String) (hjs : js ≠ []) (ps : List ProjectEntry) :
    ∀ acc : Frac × Nat, 0 < acc.1.den → 0 ≤ acc.1.num →
      0 < (ps.foldl (projLoopStep js) acc).1.den ∧
      0 ≤ (ps.foldl (projLoopStep js) acc).1.num ∧
      (ps.foldl (projLoopStep js) acc).2 =
        acc.2 + ps.countP (fun p => 0 < projectSkillCount p js) ∧
      (ps.foldl (projLoopStep js) acc).1.toRat =
        acc.1.toRat + ((ps.filter (fun p => 0 < projectSkillCount p js)).map
          (fun p => min ((projectSkillCount p js : ℚ) / (js.length : ℚ)) 1 * 100)).sum := by
  induction ps with
  | nil => intro acc hd hn; exact ⟨hd, hn, by simp, by simp⟩
  | cons p ps ih =>
    intro acc hd hn
    have hL : 0 < js.length := List.length_pos.mpr hjs
    by_cases hp : 0 < projectSkillCount p js
    · have hstep : projLoopStep js acc p =
          (acc.1.add ((Frac.fmin ⟨(projectSkillCount p js : Int), js.length⟩
            (Frac.ofInt 1)).mul (Frac.ofInt 100)), acc.2 + 1) := by
        unfold projLoopStep
        rw [if_pos hp]
      set contrib := (Frac.fmin ⟨(projectSkillCount p js : Int), js.length⟩
        (Frac.ofInt 1)).mul (Frac.ofInt 100) with hcontrib
      have hcd : 0 < contrib.den := by
        rw [hcontrib]
        unfold Frac.fmin
        split_ifs <;> (unfold Frac.mul Frac.ofInt; dsimp only) <;> omega
      have hcn : 0 ≤ contrib.num := by
        rw [hcontrib]
        unfold Frac.fmin
        split_ifs <;> (unfold Frac.mul Frac.ofInt; dsimp only) <;> positivity
      have hct : contrib.toRat =
          min ((projectSkillCount p js : ℚ) / (js.length : ℚ)) 1 * 100 := by
        rw [hcontrib, Frac.toRat_mul]
        unfold Frac.fmin
        split_ifs with hb
        · have hlt : (projectSkillCount p js : Int) < (js.length : Int) := by
            simp only [Frac.blt, Frac.ofInt, decide_eq_true_eq] at hb
            omega
          rw [Frac.toRat_mk, Frac.toRat_ofInt, min_eq_left]
          · push_cast
            ring
          · rw [div_le_one (by positivity)]
            exact_mod_cast hlt.le
        · have hge : (js.length : Int) ≤ (projectSkillCount p js : Int) := by
            simp only [Frac.blt, Frac.ofInt, decide_eq_true_eq, not_lt] at hb
            omega
          rw [Frac.toRat_ofInt, Frac.toRat_ofInt, min_eq_right]
          · norm_num
          · rw [le_div_iff (by positivity), one_mul]
            exact_mod_cast hge
      have hd2 : 0 < (acc.1.add contrib).den := by
        unfold Frac.add
        dsimp only
        exact Nat.mul_pos hd hcd
      have hn2 : 0 ≤ (acc.1.add contrib).num := by
        unfold Frac.add
        dsimp only
        exact add_nonneg (mul_nonneg hn (by positivity)) (mul_nonneg hcn (by positivity))
      rw [List.foldl_cons, hstep]
      obtain ⟨ihd, ihn, ihc, iht⟩ := ih (acc.1.add contrib, acc.2 + 1) hd2 hn2
      refine ⟨ihd, ihn, ?_, ?_⟩
      · rw [ihc]
        simp [List.countP_cons, hp]
        omega
      · rw [iht]
        dsimp only
        rw [Frac.toRat_add _ _ hd hcd, hct,
          List.filter_cons, if_pos (by simpa using hp), List.map_cons, List.sum_cons]
        ring
    · have hstep : projLoopStep js acc p = acc := by
        unfold projLoopStep
        rw [if_neg hp]
      rw [List.foldl_cons, hstep]
      obtain ⟨ihd, ihn, ihc, iht⟩ := ih acc hd hn
      refine ⟨ihd, ihn, ?_, ?_⟩
      · rw [ihc]
        simp [List.countP_cons, hp]
      · rw [iht]
        rw [List.filter_cons, if_neg (by simpa using hp)]

/-- Claim C6: the project relevance scorer returns 50 with no projects;
80 with projects but no job skills; 30 when projects and job skills
exist but no project contains any job skill; otherwise each project
with a positive skill count contributes
`min(count/len(job_skills), 1)·100` and the score is the average over
those relevant projects only, truncated to an integer (the `int()` of
the source). -/
theorem C6_project_relevance :
    (∀ js : List String, (project_relevance_score [] js).1 = 50) ∧
    (∀ ps : List ProjectEntry, ps ≠ [] → (project_relevance_score ps []).1 = 80) ∧
    (∀ (ps : List ProjectEntry) (js : List String), ps ≠ [] → js ≠ [] →
      ps.countP (fun p => 0 < projectSkillCount p js) = 0 →
      (project_relevance_score ps js).1 = 30) ∧
    (∀ (ps : List ProjectEntry) (js : List String), ps ≠ [] → js ≠ [] →
      0 < ps.countP (fun p => 0 < projectSkillCount p js) →
      (project_relevance_score ps js).1 =
        ⌊((ps.filter (fun p => 0 < projectSkillCount p js)).map
            (fun p => min ((projectSkillCount p js : ℚ) / (js.length : ℚ)) 1 * 100)).sum /
          (ps.countP (fun p => 0 < projectSkillCount p js) : ℚ)⌋) := by
  refine ⟨?_, ?_, ?_, ?_⟩
  · intro js; rfl
  · intro ps h
    unfold project_relevance_score
    rw [if_neg h]
    rfl
  · intro ps js h1 h2 hc
    unfold project_relevance_score
    rw [if_neg h1, if_neg h2]
    obtain ⟨hd, hn, hcnt, ht⟩ := projLoop_spec js h2 ps (Frac.ofInt 0, 0) (by decide) (by decide)
    dsimp only
    rw [if_pos (by rw [hcnt]; simpa using hc)]
  · intro ps js h1 h2 hc
    unfold project_relevance_score
    rw [if_neg h1, if_neg h2]
    obtain ⟨hd, hn, hcnt, ht⟩ := projLoop_spec js h2 ps (Frac.ofInt 0, 0) (by decide) (by decide)
    dsimp only
    rw [if_neg (by rw [hcnt]; omega)]
    rw [Frac.trunc_eq_floor _ (by exact hn)]
    congr 1
    rw [Frac.toRat_divNat, ht, Frac.toRat_ofInt, hcnt]
    norm_num

/-- Witness for C6 at concrete inputs. -/
theorem C6_project_relevance_witness :
    (project_relevance_score [⟨"tool", "desc"⟩] []).1 = 80 ∧
    (project_relevance_score [⟨"tool", "desc"⟩] ["zz"]).1 = 30 ∧
    (project_relevance_score [⟨"uses aa", "text"⟩] ["aa"]).1 =
      ⌊((([⟨"uses aa", "text"⟩] : List ProjectEntry).filter
          (fun p => 0 < projectSkillCount p ["aa"])).map
          (fun p => min ((projectSkillCount p ["aa"] : ℚ) /
            ((["aa"] : List String).length : ℚ)) 1 * 100)).sum /
        (([⟨"uses aa", "text"⟩] : List ProjectEntry).countP
          (fun p => 0 < projectSkillCount p ["aa"]) : ℚ)⌋ :=
  ⟨C6_project_relevance.2.1 _ (by decide),
   C6_project_relevance.2.2.1 _ _ (by decide) (by decide) (by decide),
   C6_project_relevance.2.2.2 _ _ (by decide) (by decide) (by decide)⟩

/-- Claim C9 (amended): within the window of the 14 lines following a
line containing a project indicator (the `range(i+1, min(i+15, n))` of
the source), every line whose stripped text has length at least 10
(shorter lines are skipped) and below 100 and does not end in a period
yields a project entry whose title is that stripped line and whose
description is the space-joined concatenation of the stripped non-empty
lines among the 3 lines immediately following it, truncated to 200
characters. -/
theorem C9_title_window (lines : List String) (i j : Nat)
    (hi : i < lines.length) (hind : hasIndicator (lines.getD i "") = true)
    (hj1 : i + 1 ≤ j) (hj2 : j < min (i + 15) lines.length)
    (hlen10 : 10 ≤ (pyStrip (lines.getD j "")).length)
    (hlen100 : (pyStrip (lines.getD j "")).length < 100)
    (hdot : endsDot (pyStrip (lines.getD j "")) = false) :
    (⟨pyStrip (lines.getD j ""), descriptionAt lines j⟩ : ProjectEntry) ∈
      parse_projects lines := by
  unfold parse_projects
  rw [List.mem_flatMap]
  refine ⟨i, ?_, ?_⟩
  · rw [List.mem_range]
    exact hi
  · rw [if_pos hind, List.mem_filterMap]
    refine ⟨j, ?_, ?_⟩
    · rw [List.mem_range'_1]
      omega
    · unfold titleAt
      have hne : ¬(pyStrip (lines.getD j "") = "" ∨
          (pyStrip (lines.getD j "")).length < 10) := by
        rintro (h | h)
        · rw [h] at hlen10
          simp at hlen10
        · omega
      have hdot' : endsDot (pyStrip (lines[j]?.getD "")) = false := by
        rw [← List.getD_eq_getElem?_getD]
        exact hdot
      rw [if_neg hne, if_pos ⟨hlen100, by simp [hdot']⟩]

/-- Witness for C9 at a concrete input. -/
theorem C9_title_window_witness :
    (⟨pyStrip ((["project", "0123456789"] : List String).getD 1 ""),
      descriptionAt ["project", "0123456789"] 1⟩ : ProjectEntry) ∈
      parse_projects ["project", "0123456789"] :=
  C9_title_window ["project", "0123456789"] 0 1 (by decide) (by decide) (by decide)
    (by decide) (by decide) (by decide) (by decide)

/-- Counterexample to C9 as stated: in the two-line input
["project", "abcde"] the second line follows the indicator line inside
the window, is non-empty, shorter than 100 characters and does not end
in a period, so the claim requires a project entry titled "abcde" — but
the code skips every stripped line shorter than 10 characters and
returns no project at all. -/
theorem C9_window_counterexample :
    (pyStrip "abcde" = "abcde" ∧ "abcde" ≠ "" ∧ "abcde".length < 100 ∧
      endsDot "abcde" = false ∧ hasIndicator "project" = true) ∧
    parse_projects ["project", "abcde"] = [] := by
  constructor
  · decide
  · decide
